import Mathlib

/-!
# Verification of the OCC transfer service and its load-test harness

Shallow embedding of the core logic of the `riv25-codetalk` repository:

* the transactional money-transfer handler
  (`src/ch04/lambda/src/index.ts`: `performTransfer`, `handler`), and
* the stress-test statistics aggregation of the harness
  (`stress-worker.js` / the chapter-4 `runStressTest`).

The accounts table is modelled as a list of rows; the SQL `UPDATE ... WHERE
id = $2` statements are modelled row by row, with their `RETURNING` lists and
row counts.  Store-level concurrency failures (PostgreSQL error code 40001)
cannot arise inside the pure transaction model, so the handler's retry loop is
modelled over an explicit list of attempt outcomes: each element is what one
call to `performTransfer` (including any store-raised error) produced.
-/

namespace Codetalk

/-- One row of the `accounts` table: integer primary key and integer balance
(`schema.ts`). -/
structure Account where
  id : Int
  balance : Int
deriving DecidableEq, Repr

/-- The accounts table: a list of rows. -/
abbrev Db := List Account

/-- `UPDATE accounts SET balance = balance + delta WHERE id = accId
RETURNING balance`: returns the updated table together with the list of
post-update balances of the affected rows (`RETURNING` sees the new row, and
the length of this list is the affected-row count). -/
def sqlUpdateBalance (db : Db) (accId : Int) (delta : Int) : Db × List Int :=
  match db with
  | [] => ([], [])
  | a :: rest =>
      let r := sqlUpdateBalance rest accId delta
      if a.id = accId then
        (⟨a.id, a.balance + delta⟩ :: r.1, (a.balance + delta) :: r.2)
      else
        (a :: r.1, r.2)

/-- Balance of the first row with the given id, if any (`SELECT balance FROM
accounts WHERE id = ...` under the primary-key assumption). -/
def getBalance (db : Db) (accId : Int) : Option Int :=
  match db with
  | [] => none
  | a :: rest => if a.id = accId then some a.balance else getBalance rest accId

/-- The three application-level failures thrown by `performTransfer`
(`throw new Error(...)` in `index.ts`). -/
inductive TransferError where
  | payerNotFound
  | insufficientBalance
  | payeeNotFound
deriving DecidableEq, Repr

/-- The `message` of the corresponding `Error` object. -/
def TransferError.message : TransferError → String
  | .payerNotFound => "Payer account not found"
  | .insufficientBalance => "Insufficient balance"
  | .payeeNotFound => "Payee account not found"

/-- `performTransfer` (`index.ts` lines 23–62), run against a table snapshot:
deduct from the payer (`RETURNING balance`), fail if no row was affected,
fail if the new payer balance is negative, credit the payee, fail if no row
was affected, then commit.  On success it returns the payer's post-deduction
balance together with the committed table. -/
def performTransfer (db : Db) (payerId payeeId amount : Int) :
    Except TransferError (Int × Db) :=
  let deduct := sqlUpdateBalance db payerId (-amount)
  match deduct.2 with
  | [] => .error .payerNotFound
  | payerBalance :: _ =>
      if payerBalance < 0 then
        .error .insufficientBalance
      else
        let add := sqlUpdateBalance deduct.1 payeeId amount
        if add.2.length = 0 then
          .error .payeeNotFound
        else
          .ok (payerBalance, add.1)

/-- One transaction attempt as the handler sees it: begin, run
`performTransfer`, and on any thrown error roll back, which restores the
pre-transaction table.  Returns the outcome together with the committed
state. -/
def transferWithRollback (db : Db) (payerId payeeId amount : Int) :
    Except TransferError Int × Db :=
  match performTransfer db payerId payeeId amount with
  | .ok (b, db') => (.ok b, db')
  | .error e => (.error e, db)

/-- Sum of all balances in the table. -/
def sumBalances (db : Db) : Int :=
  (db.map Account.balance).sum

/-!
## The handler's retry loop, rollback and connection disposition

`handler` (`index.ts` lines 64–115) checks a connection out of the pool, runs
`performTransfer` in a `while (true)` loop, rolls back on any thrown error
(ignoring rollback failures), retries when `isOccError` recognises the store's
serialization-failure code `"40001"`, returns a structured error response
otherwise, and releases the connection in a `finally` clause.
-/

/-- A value thrown inside the transaction: either an application-level
`Error` (which carries a `message` but no `code` property), or a
store-reported error carrying a PostgreSQL classification `code` and a
message. -/
inductive ThrownError where
  | app (e : TransferError)
  | store (code : String) (message : String)
deriving DecidableEq, Repr

/-- The `code` property read by `error?.code`: `none` for plain `Error`
objects (the property is `undefined`), the store code otherwise. -/
def ThrownError.errCode : ThrownError → Option String
  | .app _ => none
  | .store c _ => some c

/-- The `message` property. -/
def ThrownError.errMessage : ThrownError → String
  | .app e => e.message
  | .store _ m => m

/-- `isOccError` (`index.ts` lines 18–21): `error?.code === "40001"`. -/
def isOccError (e : ThrownError) : Bool :=
  e.errCode = some "40001"

/-- One iteration's observable outcome: what the `performTransfer` call
produced (a balance or a thrown error), and whether the `ROLLBACK` issued
after a thrown error itself failed. -/
structure Attempt where
  result : Except ThrownError Int
  rollbackFails : Bool
deriving Repr

/-- The handler's response object: `balance` on success, `error`/`errorCode`
on failure, always `duration` and `retries`. -/
structure Response where
  balance : Option Int
  error : Option String
  errorCode : Option String
  duration : Nat
  retries : Nat
deriving DecidableEq, Repr

/-- What the `finally` clause does with the checked-out connection once the
invocation finishes: a plain `client.release()` returns it to the pool;
destroying it instead would discard it. -/
inductive Disposition where
  | releasedToPool
  | discarded
deriving DecidableEq, Repr

/-- The `while (true)` retry loop of `handler`, driven by the list of attempt
outcomes the store produces (the loop itself has no iteration cap; a run
whose attempt list is exhausted while every element was a conflict is still
spinning, modelled as `none`).  On success it returns the balance response;
on a thrown error it rolls back — a rollback failure is swallowed by the
empty `catch` — then either retries (code `"40001"`) or returns the
structured error response; the `finally` clause releases the connection to
the pool in every terminating run. -/
def handlerRun (duration : Nat) : List Attempt → Nat → Option (Response × Disposition)
  | [], _ => none
  | a :: rest, retryCount =>
      match a.result with
      | .ok balance =>
          some (⟨some balance, none, none, duration, retryCount⟩, .releasedToPool)
      | .error e =>
          if isOccError e then
            handlerRun duration rest (retryCount + 1)
          else
            some (⟨none, some e.errMessage, e.errCode, duration, retryCount⟩,
              .releasedToPool)

/-- The attempt outcome a `performTransfer` call yields when the store raises
no concurrency conflict: the pure transaction result, with application errors
thrown as plain `Error` objects (no `code`). -/
def attemptOf (db : Db) (payerId payeeId amount : Int) : Attempt :=
  match performTransfer db payerId payeeId amount with
  | .ok (b, _) => ⟨.ok b, false⟩
  | .error e => ⟨.error (.app e), false⟩

/-!
## The stress-test harness's statistics aggregation

`stress-worker.js` (`runInvocations`) and the single-worker branch of
`runStressTest` accumulate identical per-response statistics: classify each
response payload as error or success by the truthiness of its `error` field,
fold every present `duration` into total/min/max, and fold every present
`retries` into the retry counters.
-/

/-- A Transfer Service response payload as the harness reads it after JSON
parsing: any field may be absent. -/
structure InvocationResponse where
  error : Option String
  errorCode : Option String
  duration : Option Int
  retries : Option Nat
deriving DecidableEq, Repr

/-- JavaScript truthiness of a possibly-absent string (`if (x)`): `undefined`
and the empty string are falsy. -/
def strTruthy : Option String → Bool
  | none => false
  | some s => s ≠ ""

/-- The error-breakdown key: `` `${error} (${errorCode})` `` when `errorCode`
is truthy, the bare `error` string otherwise. -/
def errorKey (r : InvocationResponse) : String :=
  match r.errorCode with
  | some c => if c ≠ "" then (r.error.getD "") ++ " (" ++ c ++ ")" else r.error.getD ""
  | none => r.error.getD ""

/-- Bump a key's count in the error-type map
(`stats.errorTypes[k] = (stats.errorTypes[k] || 0) + 1`). -/
def bumpKey (m : List (String × Nat)) (k : String) : List (String × Nat) :=
  match m with
  | [] => [(k, 1)]
  | (k', n) :: rest => if k' = k then (k', n + 1) :: rest else (k', n) :: bumpKey rest k

/-- The harness's `stats` record.  `minDuration` starts at `Infinity`,
modelled as `none` (no finite value yet); `maxDuration` starts at `0`. -/
structure Stats where
  success : Nat
  errors : Nat
  totalDuration : Int
  minDuration : Option Int
  maxDuration : Int
  totalRetries : Nat
  maxRetries : Nat
  transactionsWithRetries : Nat
  errorTypes : List (String × Nat)
deriving DecidableEq, Repr

/-- The zero-initialised `stats` object (with `minDuration: Infinity`). -/
def initStats : Stats :=
  ⟨0, 0, 0, none, 0, 0, 0, 0, []⟩

/-- `Math.min` against a running minimum that starts at `Infinity`. -/
def optMin (m : Option Int) (d : Int) : Option Int :=
  match m with
  | none => some d
  | some v => some (min v d)

/-- Process one settled response, exactly as the `.then` callback does:
classify by truthy `error` (bucketing errors by `errorKey`), then fold the
`duration` field if present, then fold the `retries` field if present. -/
def processResponse (s : Stats) (r : InvocationResponse) : Stats :=
  let s1 :=
    if strTruthy r.error then
      { s with errors := s.errors + 1, errorTypes := bumpKey s.errorTypes (errorKey r) }
    else
      { s with success := s.success + 1 }
  let s2 :=
    match r.duration with
    | none => s1
    | some d =>
        { s1 with
          totalDuration := s1.totalDuration + d
          minDuration := optMin s1.minDuration d
          maxDuration := max s1.maxDuration d }
  match r.retries with
  | none => s2
  | some n =>
      { s2 with
        totalRetries := s2.totalRetries + n
        maxRetries := max s2.maxRetries n
        transactionsWithRetries :=
          if n > 0 then s2.transactionsWithRetries + 1 else s2.transactionsWithRetries }

/-- Statistics accumulated over a batch of settled responses. -/
def runStats (rs : List InvocationResponse) : Stats :=
  rs.foldl processResponse initStats

/-- The summary's average execution time: `stats.totalDuration /
stats.success` (printed when `stats.success > 0`). -/
def avgDuration (s : Stats) : ℚ :=
  (s.totalDuration : ℚ) / (s.success : ℚ)

/-!
## Multi-worker sharding

The multi-worker branch of `runStressTest` gives each of the `numWorkers`
workers `Math.ceil(parallelCalls / numWorkers)` parallel calls and the full
iteration count; each worker's loop issues one invocation per parallel call
per iteration.
-/

/-- `Math.ceil(parallelCalls / numWorkers)` on naturals (`numWorkers > 0`). -/
def parallelCallsPerWorker (parallelCalls numWorkers : Nat) : Nat :=
  (parallelCalls + numWorkers - 1) / numWorkers

/-- Invocations issued by one worker: `iterations` batches, each gathering
one promise per parallel call. -/
def workerInvocationCount (parallelCalls iterations : Nat) : Nat :=
  (List.range iterations).foldl (fun acc _ => acc + parallelCalls) 0

/-- Total invocations issued across all workers in multi-worker mode: every
worker is spawned with `parallelCallsPerWorker` and the full `iterations`. -/
def multiWorkerTotal (parallelCalls numWorkers iterations : Nat) : Nat :=
  ((List.range numWorkers).map
    (fun _ => workerInvocationCount (parallelCallsPerWorker parallelCalls numWorkers) iterations)).sum

/-!
## Helper lemmas about the SQL row updates
-/

theorem getBalance_update_self (db : Db) (i d : Int) :
    getBalance (sqlUpdateBalance db i d).1 i = (getBalance db i).map (· + d) := by
  induction db with
  | nil => rfl
  | cons a rest ih =>
      by_cases h : a.id = i
      · simp [sqlUpdateBalance, getBalance, h]
      · simp [sqlUpdateBalance, getBalance, h, ih]

theorem getBalance_update_ne (db : Db) {i j : Int} (d : Int) (h : j ≠ i) :
    getBalance (sqlUpdateBalance db i d).1 j = getBalance db j := by
  induction db with
  | nil => rfl
  | cons a rest ih =>
      by_cases ha : a.id = i
      · have hij : ¬ i = j := fun hj => h hj.symm
        simp [sqlUpdateBalance, getBalance, ha, hij, ih]
      · simp only [sqlUpdateBalance, if_neg ha, getBalance]
        by_cases hj : a.id = j
        · simp [hj]
        · simp [hj, ih]

theorem getBalance_update_none_iff (db : Db) (i j d : Int) :
    getBalance (sqlUpdateBalance db i d).1 j = none ↔ getBalance db j = none := by
  by_cases h : j = i
  · subst h
    rw [getBalance_update_self]
    cases getBalance db j <;> simp
  · rw [getBalance_update_ne db d h]

theorem returned_head_eq (db : Db) (i d : Int) :
    (sqlUpdateBalance db i d).2.head? = (getBalance db i).map (· + d) := by
  induction db with
  | nil => rfl
  | cons a rest ih =>
      by_cases h : a.id = i
      · simp [sqlUpdateBalance, getBalance, h]
      · simp [sqlUpdateBalance, getBalance, h, ih]

theorem returned_cons_of_balance (db : Db) {i : Int} (d : Int) {b : Int}
    (h : getBalance db i = some b) :
    ∃ tl, (sqlUpdateBalance db i d).2 = (b + d) :: tl := by
  have hh := returned_head_eq db i d
  rw [h] at hh
  cases heq : (sqlUpdateBalance db i d).2 with
  | nil => rw [heq] at hh; simp at hh
  | cons x tl =>
      rw [heq] at hh
      simp at hh
      exact ⟨tl, by rw [hh]⟩

theorem returned_nil_of_none (db : Db) {i : Int} (d : Int)
    (h : getBalance db i = none) :
    (sqlUpdateBalance db i d).2 = [] := by
  have hh := returned_head_eq db i d
  rw [h] at hh
  cases heq : (sqlUpdateBalance db i d).2 with
  | nil => rfl
  | cons x tl => rw [heq] at hh; simp at hh

theorem update_update (db : Db) (i d e : Int) :
    (sqlUpdateBalance (sqlUpdateBalance db i d).1 i e).1
      = (sqlUpdateBalance db i (d + e)).1 := by
  induction db with
  | nil => rfl
  | cons a rest ih =>
      by_cases h : a.id = i
      · simp [sqlUpdateBalance, h, ih, add_assoc]
      · simp [sqlUpdateBalance, h, ih]

theorem update_zero (db : Db) (i : Int) :
    (sqlUpdateBalance db i 0).1 = db := by
  induction db with
  | nil => rfl
  | cons a rest ih =>
      cases a with
      | mk aid abal =>
          simp only [sqlUpdateBalance, add_zero, ih]
          split <;> rfl

theorem returned_nil_iff (db : Db) (i d : Int) :
    (sqlUpdateBalance db i d).2 = [] ↔ getBalance db i = none := by
  constructor
  · intro h
    cases hg : getBalance db i with
    | none => rfl
    | some b =>
        obtain ⟨tl, htl⟩ := returned_cons_of_balance db d hg
        rw [h] at htl
        exact absurd htl (by simp)
  · exact returned_nil_of_none db d

/-!
## Characterisation of `performTransfer`
-/

/-- When the payer row exists with balance `pb`, `performTransfer` reduces to
the three-way outcome dictated by the balance check and the payee lookup. -/
theorem performTransfer_eq_of_payer (db : Db) {p : Int} (q m : Int) {pb : Int}
    (h : getBalance db p = some pb) :
    performTransfer db p q m =
      if pb - m < 0 then .error .insufficientBalance
      else if getBalance db q = none then .error .payeeNotFound
      else .ok (pb - m, (sqlUpdateBalance (sqlUpdateBalance db p (-m)).1 q m).1) := by
  obtain ⟨tl, htl⟩ := returned_cons_of_balance db (-m) h
  have hsub : pb + -m = pb - m := by ring
  rw [hsub] at htl
  simp only [performTransfer, htl]
  by_cases hneg : pb - m < 0
  · simp [hneg]
  · simp only [if_neg hneg]
    by_cases hq : getBalance db q = none
    · have hnil : (sqlUpdateBalance (sqlUpdateBalance db p (-m)).1 q m).2 = [] := by
        rw [returned_nil_iff, getBalance_update_none_iff]
        exact hq
      simp [hnil, hq]
    · have hne : ¬ (sqlUpdateBalance (sqlUpdateBalance db p (-m)).1 q m).2 = [] := by
        rw [returned_nil_iff, getBalance_update_none_iff]
        exact hq
      have hlen : ¬ (sqlUpdateBalance (sqlUpdateBalance db p (-m)).1 q m).2.length = 0 := by
        simpa [List.length_eq_zero] using hne
      simp [hlen, hq]

/-- When the payer row is absent, the deduction affects no row and the call
fails with the payer-not-found error. -/
theorem performTransfer_payer_absent (db : Db) {p : Int} (q m : Int)
    (h : getBalance db p = none) :
    performTransfer db p q m = .error .payerNotFound := by
  have hnil := returned_nil_of_none db (-m) h
  simp only [performTransfer, hnil]

/-- Inversion of a successful `performTransfer`: the payer row existed, the
returned balance is its pre-balance minus the amount and is non-negative, the
payee row existed, and the committed table is the doubly-updated one. -/
theorem performTransfer_ok_inv (db : Db) {p q m b : Int} {db' : Db}
    (h : performTransfer db p q m = .ok (b, db')) :
    ∃ pb, getBalance db p = some pb ∧ b = pb - m ∧ 0 ≤ b ∧
      getBalance db q ≠ none ∧
      db' = (sqlUpdateBalance (sqlUpdateBalance db p (-m)).1 q m).1 := by
  cases hg : getBalance db p with
  | none =>
      rw [performTransfer_payer_absent db q m hg] at h
      exact absurd h (by simp)
  | some pb =>
      rw [performTransfer_eq_of_payer db q m hg] at h
      by_cases hneg : pb - m < 0
      · rw [if_pos hneg] at h
        exact absurd h (by simp)
      · rw [if_neg hneg] at h
        by_cases hq : getBalance db q = none
        · rw [if_pos hq] at h
          exact absurd h (by simp)
        · rw [if_neg hq] at h
          simp only [Except.ok.injEq, Prod.mk.injEq] at h
          exact ⟨pb, rfl, h.1.symm, by omega, hq, h.2.symm⟩

/-!
## Structural lemmas about the retry loop and the harness
-/

/-- Every terminating handler run releases the connection back to the pool:
the `finally` clause runs `client.release()` unconditionally, and rollback
failures are swallowed on the way there. -/
theorem handlerRun_releases (d : Nat) (attempts : List Attempt) (rc : Nat)
    (resp : Response) (disp : Disposition)
    (h : handlerRun d attempts rc = some (resp, disp)) :
    disp = .releasedToPool := by
  induction attempts generalizing rc with
  | nil => exact absurd h (by simp [handlerRun])
  | cons a rest ih =>
      cases hres : a.result with
      | ok b =>
          simp only [handlerRun, hres] at h
          exact (Prod.mk.injEq .. ▸ (Option.some.injEq .. ▸ h)).2.symm
      | error e =>
          by_cases hocc : isOccError e
          · simp only [handlerRun, hres, if_pos hocc] at h
            exact ih (rc + 1) h
          · simp only [handlerRun, hres, if_neg hocc] at h
            exact (Prod.mk.injEq .. ▸ (Option.some.injEq .. ▸ h)).2.symm

/-- Shape of every terminating handler response: success populates `balance`
and neither error field; failure populates `error`, carries `errorCode`
exactly when the thrown error had a `code`, and never populates `balance`;
`duration` is always the measured duration and `retries` never drops below
the entering retry count. -/
theorem handlerRun_shape (d : Nat) (attempts : List Attempt) (rc : Nat)
    (resp : Response) (disp : Disposition)
    (h : handlerRun d attempts rc = some (resp, disp)) :
    ((resp.balance.isSome = true ∧ resp.error = none ∧ resp.errorCode = none) ∨
      (resp.balance = none ∧ resp.error.isSome = true)) ∧
    (resp.errorCode.isSome = true → resp.error.isSome = true) ∧
    resp.duration = d ∧ rc ≤ resp.retries := by
  induction attempts generalizing rc with
  | nil => exact absurd h (by simp [handlerRun])
  | cons a rest ih =>
      cases hres : a.result with
      | ok b =>
          simp only [handlerRun, hres, Option.some.injEq, Prod.mk.injEq] at h
          rw [← h.1]
          simp
      | error e =>
          by_cases hocc : isOccError e
          · simp only [handlerRun, hres, if_pos hocc] at h
            have := ih (rc + 1) h
            exact ⟨this.1, this.2.1, this.2.2.1, by omega⟩
          · simp only [handlerRun, hres, if_neg hocc, Option.some.injEq,
              Prod.mk.injEq] at h
            rw [← h.1]
            simp

/-- A successful attempt ends the loop with the balance and the current
retry count. -/
theorem handlerRun_cons_ok (d : Nat) (b : Int) (rb : Bool) (rest : List Attempt)
    (rc : Nat) :
    handlerRun d (⟨.ok b, rb⟩ :: rest) rc =
      some (⟨some b, none, none, d, rc⟩, .releasedToPool) := rfl

/-- A serialization-conflict attempt makes the loop continue with the retry
counter incremented, regardless of whether its rollback failed. -/
theorem handlerRun_cons_occ (d : Nat) {e : ThrownError} (rb : Bool)
    (rest : List Attempt) (rc : Nat) (h : isOccError e = true) :
    handlerRun d (⟨.error e, rb⟩ :: rest) rc = handlerRun d rest (rc + 1) := by
  simp [handlerRun, h]

/-- Any other thrown error ends the loop immediately with a structured error
response carrying the error's classification code, regardless of whether its
rollback failed and of any attempts that would have followed. -/
theorem handlerRun_cons_err (d : Nat) {e : ThrownError} (rb : Bool)
    (rest : List Attempt) (rc : Nat) (h : isOccError e = false) :
    handlerRun d (⟨.error e, rb⟩ :: rest) rc =
      some (⟨none, some e.errMessage, e.errCode, d, rc⟩, .releasedToPool) := by
  simp [handlerRun, h]

/-- A run of `n` consecutive serialization conflicts followed by a success
returns the balance with `n` added to the retry counter: the loop has no
iteration cap. -/
theorem handlerRun_replicate_occ (d : Nat) (msg : String) (b : Int) (n rc : Nat) :
    handlerRun d
        (List.replicate n ⟨.error (.store "40001" msg), false⟩ ++ [⟨.ok b, false⟩]) rc =
      some (⟨some b, none, none, d, rc + n⟩, .releasedToPool) := by
  induction n generalizing rc with
  | zero => simp [handlerRun]
  | succ k ih =>
      have harith : rc + 1 + k = rc + (k + 1) := by omega
      rw [List.replicate_succ, List.cons_append,
        @handlerRun_cons_occ d (.store "40001" msg) false _ rc rfl,
        ih (rc + 1), harith]

theorem workerInvocationCount_eq (p it : Nat) :
    workerInvocationCount p it = it * p := by
  unfold workerInvocationCount
  induction it with
  | zero => simp
  | succ k ih =>
      rw [List.range_succ, List.foldl_append, ih]
      simp [Nat.succ_mul]

/-- `numWorkers * Math.ceil(parallelCalls / numWorkers)` recovers
`parallelCalls` exactly when `numWorkers` divides it. -/
theorem mul_parallelCallsPerWorker_of_dvd {p n : Nat} (hn : 0 < n) (h : n ∣ p) :
    n * parallelCallsPerWorker p n = p := by
  obtain ⟨k, rfl⟩ := h
  have h1 : 1 ≤ n := hn
  have hdiv : (n * k + n - 1) / n = k := by
    rw [Nat.mul_comm n k, Nat.add_sub_assoc h1, Nat.add_comm,
      Nat.add_mul_div_right _ _ hn, Nat.div_eq_of_lt (by omega)]
    omega
  rw [parallelCallsPerWorker, hdiv]

theorem multiWorkerTotal_eq (p n it : Nat) :
    multiWorkerTotal p n it = n * (parallelCallsPerWorker p n * it) := by
  unfold multiWorkerTotal
  rw [workerInvocationCount_eq]
  simp [List.sum_replicate, Nat.mul_comm]

/-- The `duration` fields present among a batch of responses, error responses
included, in arrival order. -/
def presentDurations (rs : List InvocationResponse) : List Int :=
  rs.filterMap InvocationResponse.duration

/-- The number of responses the harness classifies as successes: those whose
`error` field is not truthy. -/
def successCount (rs : List InvocationResponse) : Nat :=
  (rs.filter (fun r => !strTruthy r.error)).length

theorem processResponse_totalDuration (s : Stats) (r : InvocationResponse) :
    (processResponse s r).totalDuration =
      s.totalDuration + (r.duration.getD 0) := by
  unfold processResponse
  cases r.duration <;> cases r.retries <;> by_cases he : strTruthy r.error <;>
    simp [he]

theorem processResponse_minDuration (s : Stats) (r : InvocationResponse) :
    (processResponse s r).minDuration =
      (match r.duration with
        | none => s.minDuration
        | some d => optMin s.minDuration d) := by
  unfold processResponse
  cases r.duration <;> cases r.retries <;> by_cases he : strTruthy r.error <;>
    simp [he]

theorem processResponse_maxDuration (s : Stats) (r : InvocationResponse) :
    (processResponse s r).maxDuration =
      (match r.duration with
        | none => s.maxDuration
        | some d => max s.maxDuration d) := by
  unfold processResponse
  cases r.duration <;> cases r.retries <;> by_cases he : strTruthy r.error <;>
    simp [he]

theorem processResponse_success (s : Stats) (r : InvocationResponse) :
    (processResponse s r).success =
      s.success + (if strTruthy r.error then 0 else 1) := by
  unfold processResponse
  cases r.duration <;> cases r.retries <;> by_cases he : strTruthy r.error <;>
    simp [he]

/-- Folding the per-response update over a batch, from any starting
accumulator: total duration adds every present duration (error responses
included), min/max fold over those same durations, and the success counter
adds the number of non-truthy-`error` responses. -/
theorem foldl_processResponse (rs : List InvocationResponse) :
    ∀ s : Stats,
      (rs.foldl processResponse s).totalDuration
          = s.totalDuration + (presentDurations rs).sum ∧
      (rs.foldl processResponse s).minDuration
          = (presentDurations rs).foldl optMin s.minDuration ∧
      (rs.foldl processResponse s).maxDuration
          = (presentDurations rs).foldl max s.maxDuration ∧
      (rs.foldl processResponse s).success = s.success + successCount rs := by
  induction rs with
  | nil => intro s; simp [presentDurations, successCount]
  | cons r rest ih =>
      intro s
      obtain ⟨ih1, ih2, ih3, ih4⟩ := ih (processResponse s r)
      refine ⟨?_, ?_, ?_, ?_⟩
      · rw [List.foldl_cons, ih1, processResponse_totalDuration]
        cases hd : r.duration <;>
          simp [presentDurations, hd, Int.add_assoc]
      · rw [List.foldl_cons, ih2, processResponse_minDuration]
        cases hd : r.duration <;> simp [presentDurations, hd]
      · rw [List.foldl_cons, ih3, processResponse_maxDuration]
        cases hd : r.duration <;> simp [presentDurations, hd]
      · rw [List.foldl_cons, ih4, processResponse_success]
        by_cases he : strTruthy r.error <;>
          simp [successCount, he, Nat.add_assoc, Nat.add_comm]

/-!
## The claims
-/

/-- C3: every successful transfer of `m` from payer `p` to payee `q`
(`p ≠ q`, both rows present) decreases the payer's balance by exactly `m`,
increases the payee's by exactly `m` (conserving their sum), and returns the
payer's post-transfer balance; in particular, from `{1: 100, 2: 100}`,
`transfer(1, 2, 10)` returns balance 90 with 0 retries and leaves
`{1: 90, 2: 110}`. -/
theorem C3_transfer_conservation :
    (∀ (db : Db) (p q m pb qb b : Int) (db' : Db),
        getBalance db p = some pb → getBalance db q = some qb → p ≠ q →
        performTransfer db p q m = .ok (b, db') →
        getBalance db' p = some (pb - m) ∧ getBalance db' q = some (qb + m) ∧
        b = pb - m ∧ (pb - m) + (qb + m) = pb + qb) ∧
    performTransfer [⟨1, 100⟩, ⟨2, 100⟩] 1 2 10 = .ok (90, [⟨1, 90⟩, ⟨2, 110⟩]) ∧
    handlerRun 0 [attemptOf [⟨1, 100⟩, ⟨2, 100⟩] 1 2 10] 0 =
      some (⟨some 90, none, none, 0, 0⟩, .releasedToPool) := by
  refine ⟨?_, rfl, rfl⟩
  intro db p q m pb qb b db' hp hq hne hok
  obtain ⟨pb', hp', hb, hb0, hqne, hdb'⟩ := performTransfer_ok_inv db hok
  rw [hp] at hp'
  have hpb : pb = pb' := Option.some.inj hp'
  subst hpb
  refine ⟨?_, ?_, hb, by ring⟩
  · rw [hdb', getBalance_update_ne _ m hne, getBalance_update_self, hp]
    simp [sub_eq_add_neg]
  · rw [hdb', getBalance_update_self, getBalance_update_ne _ (-m) (Ne.symm hne), hq]
    simp

/-- Witness for C3 at the basic-transfer scenario. -/
theorem C3_transfer_conservation_witness :
    getBalance [(⟨1, 90⟩ : Account), ⟨2, 110⟩] 1 = some (100 - 10) ∧
    getBalance [(⟨1, 90⟩ : Account), ⟨2, 110⟩] 2 = some (100 + 10) ∧
    (90 : Int) = 100 - 10 := by
  have h := C3_transfer_conservation.1 [⟨1, 100⟩, ⟨2, 100⟩] 1 2 10 100 100 90
    [⟨1, 90⟩, ⟨2, 110⟩] rfl rfl (by decide) rfl
  exact ⟨h.1, h.2.1, h.2.2.1⟩

/-- C4: no successful transfer of a non-negative amount leaves the payer's
balance negative, and when the amount exceeds the payer's balance the call
fails with the insufficient-balance error and the rollback leaves every
balance unchanged; in particular, from `{1: 5}`, `transfer(1, 2, 10)` fails
with `InsufficientBalance` and account 1 keeps balance 5. -/
theorem C4_insufficient_balance :
    (∀ (db : Db) (p q m b : Int) (db' : Db),
        0 ≤ m → performTransfer db p q m = .ok (b, db') →
        ∃ pb', getBalance db' p = some pb' ∧ 0 ≤ pb') ∧
    (∀ (db : Db) (p q m pb : Int),
        getBalance db p = some pb → pb < m →
        transferWithRollback db p q m = (.error .insufficientBalance, db)) ∧
    transferWithRollback [⟨1, 5⟩] 1 2 10 = (.error .insufficientBalance, [⟨1, 5⟩]) := by
  refine ⟨?_, ?_, rfl⟩
  · intro db p q m b db' hm hok
    obtain ⟨pb, hp, hb, hb0, hqne, hdb'⟩ := performTransfer_ok_inv db hok
    by_cases hpq : p = q
    · subst hpq
      refine ⟨pb, ?_, by omega⟩
      rw [hdb', getBalance_update_self, getBalance_update_self, hp]
      have harith : pb + -m + m = pb := by ring
      simp [harith]
    · refine ⟨b, ?_, hb0⟩
      rw [hdb', getBalance_update_ne _ m hpq, getBalance_update_self, hp, hb]
      simp [sub_eq_add_neg]
  · intro db p q m pb hp hlt
    unfold transferWithRollback
    rw [performTransfer_eq_of_payer db q m hp, if_pos (by omega)]

/-- Witness for C4: a concrete successful transfer leaving the payer
non-negative, and the insufficient-funds scenario. -/
theorem C4_insufficient_balance_witness :
    (∃ pb', getBalance [(⟨1, 90⟩ : Account), ⟨2, 110⟩] 1 = some pb' ∧ 0 ≤ pb') ∧
    transferWithRollback [⟨1, 5⟩] 1 2 10 = (.error .insufficientBalance, [⟨1, 5⟩]) :=
  ⟨C4_insufficient_balance.1 [⟨1, 100⟩, ⟨2, 100⟩] 1 2 10 90 [⟨1, 90⟩, ⟨2, 110⟩]
      (by decide) rfl,
   C4_insufficient_balance.2.1 [⟨1, 5⟩] 1 2 10 5 rfl (by decide)⟩

/-- C5 counterexample: from `{1: 5}`, `transfer(1, 999, 10)` has an absent
payee, yet it fails with `InsufficientBalance` — not with an
account-not-found kind — because the balance check precedes the payee
update. -/
theorem C5_counterexample :
    getBalance [(⟨1, 5⟩ : Account)] 999 = none ∧
    transferWithRollback [⟨1, 5⟩] 1 999 10 = (.error .insufficientBalance, [⟨1, 5⟩]) ∧
    TransferError.insufficientBalance ≠ .payerNotFound ∧
    TransferError.insufficientBalance ≠ .payeeNotFound :=
  ⟨rfl, rfl, by decide, by decide⟩

/-- C5 (amended): an absent payer always fails with the payer-not-found
error; an absent payee fails with the payee-not-found error provided the
payer exists and the deduction passes the balance check; and every failed
call leaves, after rollback, every existing balance unchanged. -/
theorem C5_account_not_found :
    (∀ (db : Db) (p q m : Int), getBalance db p = none →
        transferWithRollback db p q m = (.error .payerNotFound, db)) ∧
    (∀ (db : Db) (p q m pb : Int), getBalance db p = some pb → m ≤ pb →
        getBalance db q = none →
        transferWithRollback db p q m = (.error .payeeNotFound, db)) ∧
    (∀ (db : Db) (p q m : Int) (e : TransferError),
        (transferWithRollback db p q m).1 = .error e →
        (transferWithRollback db p q m).2 = db) := by
  refine ⟨?_, ?_, ?_⟩
  · intro db p q m hp
    unfold transferWithRollback
    rw [performTransfer_payer_absent db q m hp]
  · intro db p q m pb hp hle hq
    unfold transferWithRollback
    rw [performTransfer_eq_of_payer db q m hp, if_neg (by omega), if_pos hq]
  · intro db p q m e h
    unfold transferWithRollback at h ⊢
    cases hres : performTransfer db p q m with
    | ok v =>
        obtain ⟨b', d'⟩ := v
        rw [hres] at h
        simp at h
    | error e' => rfl

/-- Witness for C5: the missing-payer and missing-payee scenarios, and the
rollback-restores-state fact at a failing input. -/
theorem C5_account_not_found_witness :
    transferWithRollback [(⟨2, 7⟩ : Account)] 999 2 10 = (.error .payerNotFound, [⟨2, 7⟩]) ∧
    transferWithRollback [(⟨1, 50⟩ : Account)] 1 999 10 = (.error .payeeNotFound, [⟨1, 50⟩]) ∧
    (transferWithRollback [(⟨2, 7⟩ : Account)] 999 2 10).2 = [⟨2, 7⟩] :=
  ⟨C5_account_not_found.1 [⟨2, 7⟩] 999 2 10 rfl,
   C5_account_not_found.2.1 [⟨1, 50⟩] 1 999 10 50 rfl (by decide) rfl,
   C5_account_not_found.2.2 [⟨2, 7⟩] 999 2 10 .payerNotFound rfl⟩

/-- C9: the handler performs no defensive validation: a self-transfer
(`payer_id = payee_id`) on an existing account with sufficient balance
succeeds with 0 retries, the stored balance is unchanged (the decrement and
increment cancel), yet the returned balance is the pre-transfer balance
minus the amount — not the account's final balance. -/
theorem C9_self_transfer :
    ∀ (db : Db) (a m b : Int) (d : Nat),
      getBalance db a = some b → 0 < m → m ≤ b →
      performTransfer db a a m = .ok (b - m, db) ∧
      handlerRun d [attemptOf db a a m] 0 =
        some (⟨some (b - m), none, none, d, 0⟩, .releasedToPool) ∧
      b - m ≠ b := by
  intro db a m b d hb hm hmb
  have hok : performTransfer db a a m = .ok (b - m, db) := by
    rw [performTransfer_eq_of_payer db a m hb, if_neg (by omega),
      if_neg (by simp [hb])]
    have hcancel : -m + m = 0 := by ring
    rw [update_update, hcancel, update_zero]
  have hatt : attemptOf db a a m = ⟨.ok (b - m), false⟩ := by
    unfold attemptOf
    rw [hok]
  refine ⟨hok, ?_, by omega⟩
  rw [hatt, handlerRun_cons_ok]

/-- Witness for C9 at account `{1: 100}` with a self-transfer of 10. -/
theorem C9_self_transfer_witness :
    performTransfer [(⟨1, 100⟩ : Account)] 1 1 10 = .ok (100 - 10, [⟨1, 100⟩]) ∧
    handlerRun 5 [attemptOf [(⟨1, 100⟩ : Account)] 1 1 10] 0 =
      some (⟨some (100 - 10), none, none, 5, 0⟩, .releasedToPool) ∧
    (100 - 10 : Int) ≠ 100 :=
  C9_self_transfer [⟨1, 100⟩] 1 10 100 5 rfl (by decide) (by decide)

/-- C1: a failure inside the transaction makes the handler retry (on the same
connection, with the retry counter incremented) exactly when it carries the
store's serialization-conflict code `"40001"`; any run of `n` conflicts
followed by a success still succeeds with `retries = n` (no iteration cap);
and every other failure ends the loop at once with a structured error
response carrying the store's classification code. -/
theorem C1_retry_iff_occ :
    (∀ e : ThrownError, isOccError e = true ↔ e.errCode = some "40001") ∧
    (∀ (d : Nat) (e : ThrownError) (rb : Bool) (rest : List Attempt) (rc : Nat),
        isOccError e = true →
        handlerRun d (⟨.error e, rb⟩ :: rest) rc = handlerRun d rest (rc + 1)) ∧
    (∀ (d : Nat) (e : ThrownError) (rb : Bool) (rest : List Attempt) (rc : Nat),
        isOccError e = false →
        handlerRun d (⟨.error e, rb⟩ :: rest) rc =
          some (⟨none, some e.errMessage, e.errCode, d, rc⟩, .releasedToPool)) ∧
    (∀ (d n : Nat) (msg : String) (b : Int),
        handlerRun d
            (List.replicate n ⟨.error (.store "40001" msg), false⟩ ++
              [⟨.ok b, false⟩]) 0 =
          some (⟨some b, none, none, d, n⟩, .releasedToPool)) := by
  refine ⟨?_, ?_, ?_, ?_⟩
  · intro e
    simp [isOccError]
  · intro d e rb rest rc h
    exact handlerRun_cons_occ d rb rest rc h
  · intro d e rb rest rc h
    exact handlerRun_cons_err d rb rest rc h
  · intro d n msg b
    simpa using handlerRun_replicate_occ d msg b n 0

/-- Witness for C1: one conflict retries, a constraint violation stops the
loop with its code attached, and two conflicts before a success yield
`retries = 2`. -/
theorem C1_retry_iff_occ_witness :
    (isOccError (.store "40001" "occ conflict") = true ↔
      ThrownError.errCode (.store "40001" "occ conflict") = some "40001") ∧
    handlerRun 3 [⟨.error (.store "40001" "occ conflict"), false⟩, ⟨.ok 7, false⟩] 0 =
      handlerRun 3 [⟨.ok 7, false⟩] 1 ∧
    handlerRun 3 [⟨.error (.store "23505" "duplicate key value"), false⟩] 0 =
      some (⟨none, some "duplicate key value", some "23505", 3, 0⟩, .releasedToPool) ∧
    handlerRun 3 (List.replicate 2 ⟨.error (.store "40001" "occ conflict"), false⟩ ++
        [⟨.ok 7, false⟩]) 0 =
      some (⟨some 7, none, none, 3, 2⟩, .releasedToPool) :=
  ⟨C1_retry_iff_occ.1 (.store "40001" "occ conflict"),
   C1_retry_iff_occ.2.1 3 (.store "40001" "occ conflict") false [⟨.ok 7, false⟩] 0
     (by decide),
   C1_retry_iff_occ.2.2.1 3 (.store "23505" "duplicate key value") false [] 0
     (by decide),
   C1_retry_iff_occ.2.2.2 3 2 "occ conflict" 7⟩

/-- C2 counterexample: a constraint-violation attempt whose rollback also
fails still ends with the connection released back to the pool — the code
ignores rollback failures and releases unconditionally, so the connection is
not discarded as the claim states. -/
theorem C2_counterexample :
    handlerRun 3 [⟨.error (.store "23505" "constraint violated"), true⟩] 0 =
      some (⟨none, some "constraint violated", some "23505", 3, 0⟩, .releasedToPool) ∧
    Disposition.releasedToPool ≠ .discarded :=
  ⟨rfl, by decide⟩

/-- C2 (amended): rollback failures are swallowed by the empty `catch`, and
every terminating invocation releases its connection back to the reusable
pool through the `finally` clause — whether or not a rollback failed; no
execution path discards the connection. -/
theorem C2_connection_released :
    ∀ (d : Nat) (attempts : List Attempt) (rc : Nat) (resp : Response)
      (disp : Disposition),
      handlerRun d attempts rc = some (resp, disp) → disp = .releasedToPool :=
  fun d attempts rc resp disp h => handlerRun_releases d attempts rc resp disp h

/-- Witness for C2 at a failed-rollback run. -/
theorem C2_connection_released_witness :
    handlerRun 4 [⟨.error (.store "2BP01" "dependent objects exist"), true⟩] 0 =
      some (⟨none, some "dependent objects exist", some "2BP01", 4, 0⟩,
        .releasedToPool) ∧
    Disposition.releasedToPool = .releasedToPool :=
  ⟨rfl,
   C2_connection_released 4 [⟨.error (.store "2BP01" "dependent objects exist"), true⟩] 0
     ⟨none, some "dependent objects exist", some "2BP01", 4, 0⟩ .releasedToPool rfl⟩

/-- C8 counterexample: an application-raised failure (missing payer) yields a
response whose `error` field is populated but whose `errorCode` field is not
(`error?.code` is `undefined` on a plain `Error`), so the error payload
`(error, errorCode)` is not fully populated. -/
theorem C8_counterexample :
    handlerRun 3 [⟨.error (.app .payerNotFound), false⟩] 0 =
      some (⟨none, some "Payer account not found", none, 3, 0⟩, .releasedToPool) ∧
    (⟨none, some "Payer account not found", none, 3, 0⟩ : Response).error.isSome = true ∧
    (⟨none, some "Payer account not found", none, 3, 0⟩ : Response).errorCode.isSome = false :=
  ⟨rfl, rfl, rfl⟩

/-- C8 (amended): every terminating response populates exactly one of
`balance` and `error`; `errorCode` appears only on error responses (and only
when the thrown error carried a store classification code); every response
carries the measured `duration` and a non-negative `retries` count. -/
theorem C8_response_shape :
    ∀ (d : Nat) (attempts : List Attempt) (rc : Nat) (resp : Response)
      (disp : Disposition),
      handlerRun d attempts rc = some (resp, disp) →
      ((resp.balance.isSome = true ∧ resp.error = none ∧ resp.errorCode = none) ∨
        (resp.balance = none ∧ resp.error.isSome = true)) ∧
      (resp.errorCode.isSome = true → resp.error.isSome = true) ∧
      resp.duration = d ∧ 0 ≤ resp.retries := by
  intro d attempts rc resp disp h
  obtain ⟨h1, h2, h3, _⟩ := handlerRun_shape d attempts rc resp disp h
  exact ⟨h1, h2, h3, Nat.zero_le _⟩

/-- Witness for C8 at a one-attempt successful run. -/
theorem C8_response_shape_witness :
    ((some (7 : Int)).isSome = true ∧ (none : Option String) = none ∧
        (none : Option String) = none) ∨
      (some (7 : Int) = none ∧ (none : Option String).isSome = true) :=
  (C8_response_shape 2 [⟨.ok 7, false⟩] 0 ⟨some 7, none, none, 2, 0⟩
    .releasedToPool rfl).1

/-- The batch of claim C6: 90 immediate successes, 8 successes after exactly
one retry, and 2 structured non-conflict errors (retries 0). -/
def c6Batch : List InvocationResponse :=
  List.replicate 90 ⟨none, none, some 12, some 0⟩ ++
    List.replicate 8 ⟨none, none, some 30, some 1⟩ ++
    List.replicate 2 ⟨some "value violates constraint", some "23505", some 12, some 0⟩

set_option maxRecDepth 8000 in
/-- C6: over that batch of 100 responses the harness accumulates
`success = 98`, `errors = 2`, `totalRetries = 8`, `maxRetries = 1` and
`transactionsWithRetries = 8`. -/
theorem C6_harness_aggregation :
    (runStats c6Batch).success = 98 ∧ (runStats c6Batch).errors = 2 ∧
    (runStats c6Batch).totalRetries = 8 ∧ (runStats c6Batch).maxRetries = 1 ∧
    (runStats c6Batch).transactionsWithRetries = 8 := by
  refine ⟨?_, ?_, ?_, ?_, ?_⟩ <;> rfl

/-- C7 counterexample: with `parallelCalls = 10`, `numWorkers = 3` and one
iteration, the workers issue `3 × ⌈10/3⌉ = 12` invocations — not
`parallelCalls × iterations = 10`. -/
theorem C7_counterexample :
    multiWorkerTotal 10 3 1 = 12 ∧ (12 : Nat) ≠ 10 * 1 :=
  ⟨rfl, by decide⟩

/-- C7 (amended): every worker receives `⌈parallelCalls / numWorkers⌉`
parallel calls and runs all `iterations` batches over that shard, so the
total invocation count is `numWorkers × ⌈parallelCalls / numWorkers⌉ ×
iterations`; it equals `parallelCalls × iterations` when `numWorkers`
divides `parallelCalls`. -/
theorem C7_sharding :
    ∀ p n it : Nat, 0 < n →
      workerInvocationCount (parallelCallsPerWorker p n) it =
        parallelCallsPerWorker p n * it ∧
      multiWorkerTotal p n it = n * (parallelCallsPerWorker p n * it) ∧
      (n ∣ p → multiWorkerTotal p n it = p * it) := by
  intro p n it hn
  refine ⟨?_, multiWorkerTotal_eq p n it, ?_⟩
  · rw [workerInvocationCount_eq, Nat.mul_comm]
  · intro hdvd
    rw [multiWorkerTotal_eq, ← Nat.mul_assoc, mul_parallelCallsPerWorker_of_dvd hn hdvd]

/-- Witness for C7 with 12 parallel calls over 3 workers and 2 iterations. -/
theorem C7_sharding_witness :
    workerInvocationCount (parallelCallsPerWorker 12 3) 2 =
      parallelCallsPerWorker 12 3 * 2 ∧
    multiWorkerTotal 12 3 2 = 3 * (parallelCallsPerWorker 12 3 * 2) ∧
    multiWorkerTotal 12 3 2 = 12 * 2 := by
  have h := C7_sharding 12 3 2 (by decide)
  exact ⟨h.1, h.2.1, h.2.2 (by decide)⟩

/-- C10: in the harness summary, the cumulative/min/max execution times fold
over the `duration` field of every response carrying one — including
structured error responses — while the reported average divides that same
cumulative duration by the count of successful invocations only. -/
theorem C10_duration_stats :
    ∀ rs : List InvocationResponse,
      (runStats rs).totalDuration = (presentDurations rs).sum ∧
      (runStats rs).minDuration = (presentDurations rs).foldl optMin none ∧
      (runStats rs).maxDuration = (presentDurations rs).foldl max 0 ∧
      (runStats rs).success = successCount rs ∧
      avgDuration (runStats rs) =
        ((presentDurations rs).sum : ℚ) / (successCount rs : ℚ) := by
  intro rs
  obtain ⟨h1, h2, h3, h4⟩ := foldl_processResponse rs initStats
  have e1 : (runStats rs).totalDuration = (presentDurations rs).sum := by
    simpa [runStats, initStats] using h1
  have e2 : (runStats rs).minDuration = (presentDurations rs).foldl optMin none := by
    simpa [runStats, initStats] using h2
  have e3 : (runStats rs).maxDuration = (presentDurations rs).foldl max 0 := by
    simpa [runStats, initStats] using h3
  have e4 : (runStats rs).success = successCount rs := by
    simpa [runStats, initStats] using h4
  refine ⟨e1, e2, e3, e4, ?_⟩
  simp only [avgDuration, e1, e4]

end Codetalk


